import Mathlib

/-!
Verification of the nmstate IP-configuration model and NetworkManager
API wrappers (rust/src/lib/ip.rs and rust/src/lib/nm/nm_dbus/nm_api.rs),
as a shallow embedding: the Rust structs become Lean structures, the
mutating methods become pure state-passing functions, and the daemon
(D-Bus) calls become fields of an explicit record of injected functions.
-/

/-- Error kinds of the library's NmstateError (crate::ErrorKind).
Modelled from the spec: error.rs is not among the given sources; the
spec's §7 taxonomy names InvalidArgument among others. -/
inductive NmstateErrorKind
  | invalidArgument
  | notFound
  | timeout
  | bug
deriving DecidableEq, Repr

/-- The library error type NmstateError: a kind and a message
(NmstateError::new(kind, msg)). Modelled from the spec (error.rs not in
the given sources). -/
structure NmstateError where
  kind : NmstateErrorKind
  msg : String
deriving DecidableEq, Repr

/-- Error kinds of the nm_dbus module's NmError (super::error::ErrorKind).
Modelled from the spec: nm_dbus error.rs is not among the given sources;
the code in nm_api.rs uses NotFound and Timeout, the spec §7 adds a
daemon-error kind. -/
inductive NmErrorKind
  | notFound
  | timeout
  | dbusFailure
  | invalidArgument
deriving DecidableEq, Repr

/-- The nm_dbus error type NmError (NmError::new(kind, msg)). Modelled
from the spec (nm_dbus error.rs not in the given sources). -/
structure NmError where
  kind : NmErrorKind
  msg : String
deriving DecidableEq, Repr

/-- std::net::IpAddr: either an IPv4 address (32-bit value, octets in
big-endian order) or an IPv6 address (128-bit value, segments in
big-endian order). Rust's derived Ord on this enum places every V4
before every V6 and compares same-family addresses by their numeric
value. -/
inductive IpAddr
  | v4 (a : Fin (2 ^ 32))
  | v6 (a : Fin (2 ^ 128))
deriving DecidableEq, Repr

/-- IpAddr::is_ipv6. -/
def IpAddr.is_ipv6 : IpAddr → Bool
  | .v4 _ => false
  | .v6 _ => true

/-- Key function realizing Rust's Ord on IpAddr as an order on Nat:
V4 values sit below 2^32, V6 values are shifted above them. -/
def ipKey : IpAddr → Nat
  | .v4 a => a.val
  | .v6 a => 2 ^ 32 + a.val

/-- Convenience constructor for a concrete IPv4 address from its 32-bit value. -/
def mkV4 (n : Nat) : IpAddr := IpAddr.v4 ⟨n % 2 ^ 32, Nat.mod_lt _ (by norm_num)⟩

/-- Convenience constructor for a concrete IPv6 address from its 128-bit value. -/
def mkV6 (n : Nat) : IpAddr := IpAddr.v6 ⟨n % 2 ^ 128, Nat.mod_lt _ (by norm_num)⟩

/-- DnsClientState. Modelled from the spec: dns.rs is not among the
given sources; ip.rs only stores and copies this value opaquely, so any
inhabited type with decidable equality is a faithful stand-in. -/
structure DnsClientState where
  server : List String
  search : List String
deriving DecidableEq, Repr

/-- InterfaceIpAddr (ip.rs): an IP address and a prefix length (u8). -/
structure InterfaceIpAddr where
  ip : IpAddr
  prefix_length : Nat
deriving DecidableEq, Repr

/-- The comparator used by the address sorts in pre_verify_cleanup:
`(&a.ip, a.prefix_length).cmp(&(&b.ip, b.prefix_length))`, i.e. the
lexicographic order on (ip value, prefix length). -/
def addrLe (a b : InterfaceIpAddr) : Prop :=
  ipKey a.ip < ipKey b.ip ∨ (ipKey a.ip = ipKey b.ip ∧ a.prefix_length ≤ b.prefix_length)

instance : DecidableRel addrLe := fun a b => by
  unfold addrLe
  exact inferInstance

instance : IsTotal InterfaceIpAddr addrLe := by
  constructor
  intro a b
  unfold addrLe
  omega

instance : IsTrans InterfaceIpAddr addrLe := by
  constructor
  intro a b c hab hbc
  unfold addrLe at *
  omega

/-- The address sort of pre_verify_cleanup (`sort_unstable_by` with the
(ip, prefix length) comparator), modelled as a sort (stability is
irrelevant to the sortedness claims). -/
def sortAddrs (l : List InterfaceIpAddr) : List InterfaceIpAddr :=
  List.insertionSort addrLe l

/-- Lowercase hexadecimal digits of a Nat, as Rust's x-formatting writes
a u16 segment. -/
def hexOfNat (n : Nat) : String := String.mk (Nat.toDigits 16 n)

/-- Join strings with colons (the segment separator of the IPv6 textual
form), written by structural recursion so concrete inputs reduce inside
the kernel. -/
def joinColon : List String → String
  | [] => ""
  | [x] => x
  | x :: rest => x ++ ":" ++ joinColon rest

/-- Rust's Display for Ipv4Addr: dotted decimal octets. -/
def ipv4ToString (a : Nat) : String :=
  toString (a / 16777216 % 256) ++ "." ++ toString (a / 65536 % 256) ++ "."
    ++ toString (a / 256 % 256) ++ "." ++ toString (a % 256)

/-- The eight 16-bit segments of an IPv6 address value, most significant
first (Ipv6Addr::segments). -/
def v6segs (a : Nat) : List Nat :=
  (List.range 8).map (fun i => a / 2 ^ (16 * (7 - i)) % 65536)

/-- Scan for the leftmost longest run of zero segments, as Rust's
Display for Ipv6Addr computes its Span (current run start and length,
best-so-far start and length, strict improvement only). -/
def zeroRunAux : List Nat → Nat → Nat → Nat → Nat → Nat → Nat × Nat
  | [], _, _, _, bs, bl => (bs, bl)
  | sg :: rest, i, cs, cl, bs, bl =>
    if sg = 0 then
      let cs' := if cl = 0 then i else cs
      let cl' := cl + 1
      if bl < cl' then zeroRunAux rest (i + 1) cs' cl' cs' cl'
      else zeroRunAux rest (i + 1) cs' cl' bs bl
    else zeroRunAux rest (i + 1) 0 0 bs bl

/-- Start and length of the leftmost longest zero-segment run. -/
def zeroRun (segs : List Nat) : Nat × Nat := zeroRunAux segs 0 0 0 0 0

/-- Rust's Display for Ipv6Addr (the default-options path): special
cases for the unspecified address, loopback and to_ipv4 forms, otherwise
hex segments joined by colons with the leftmost longest zero run of
length at least two compressed to a double colon. -/
def ipv6ToString (a : Nat) : String :=
  let segs := v6segs a
  if a = 0 then "::"
  else if a = 1 then "::1"
  else if segs.take 5 = [0, 0, 0, 0, 0] ∧ (segs.getD 5 0 = 0 ∨ segs.getD 5 0 = 65535) then
    (if segs.getD 5 0 = 65535 then "::ffff:" else "::") ++ ipv4ToString (a % 4294967296)
  else
    let run := zeroRun segs
    if 1 < run.2 then
      joinColon ((segs.take run.1).map hexOfNat) ++ "::"
        ++ joinColon ((segs.drop (run.1 + run.2)).map hexOfNat)
    else joinColon (segs.map hexOfNat)

/-- The textual form Rust's `addr.ip.to_string()` produces. -/
def IpAddr.toStr : IpAddr → String
  | .v4 a => ipv4ToString a.val
  | .v6 a => ipv6ToString a.val

/-- is_ipv6_addr (ip.rs): the string contains a colon (stated over the
character list so it computes by structural recursion). -/
def is_ipv6_addr (addr : String) : Bool := addr.data.contains ':'

/-- The first three characters of a string, as the byte slice ip[..3]
takes them (the textual addresses involved are ASCII). -/
def strFirst3 (s : String) : String := String.mk (s.data.take 3)

/-- is_ipv6_unicast_link_local (ip.rs): string-based test that the
textual address is IPv6, is at least three characters long, starts with
fe8, fe9, fea or feb, and that the prefix is at least 10. -/
def is_ipv6_unicast_link_local (ip : String) (p : Nat) : Bool :=
  is_ipv6_addr ip && decide (3 ≤ ip.data.length)
    && ["fe8", "fe9", "fea", "feb"].contains (strFirst3 ip)
    && decide (10 ≤ p)

/-- Membership in fe80::/10 with prefix at least 10. Modelled from the
spec's words ("prefix ≥ 10 and the address's first 12 bits fall in
fe80–febf", i.e. the first 10 bits are 1111111010): the reference
predicate the string-based source check is compared against. -/
def inFe80Slash10 (ip : IpAddr) (p : Nat) : Bool :=
  match ip with
  | .v4 _ => false
  | .v6 a => decide (a.val / 2 ^ 118 = 1018) && decide (10 ≤ p)

/-- The prop_list union loop at the end of update: every name of the
patch's list that the base list does not already contain is pushed. -/
def unionProps (base other : List String) : List String :=
  other.foldl (fun acc n => if n ∈ acc then acc else acc ++ [n]) base

/-- InterfaceIpv4 (ip.rs): enabled flag, declared-field list, DHCP
switch, static addresses, DNS client state and the auto sub-options. -/
structure InterfaceIpv4 where
  enabled : Bool
  prop_list : List String
  dhcp : Option Bool
  addresses : Option (List InterfaceIpAddr)
  dns : Option DnsClientState
  auto_dns : Option Bool
  auto_gateway : Option Bool
  auto_routes : Option Bool
  auto_table_id : Option Nat
deriving DecidableEq, Repr

/-- InterfaceIpv4::default(): false and None everywhere, empty prop list. -/
def InterfaceIpv4.empty : InterfaceIpv4 :=
  { enabled := false, prop_list := [], dhcp := none, addresses := none, dns := none,
    auto_dns := none, auto_gateway := none, auto_routes := none, auto_table_id := none }

/-- InterfaceIpv4::is_auto. -/
def InterfaceIpv4.is_auto (s : InterfaceIpv4) : Bool :=
  s.enabled && s.dhcp = some true

/-- InterfaceIpv4::cleanup: disable DHCP and remove addresses when not
enabled; clear the auto options when DHCP is not Some(true). -/
def InterfaceIpv4.cleanup (s : InterfaceIpv4) : InterfaceIpv4 :=
  let s := if !s.enabled then { s with dhcp := none, addresses := none } else s
  if s.dhcp ≠ some true then
    { s with auto_dns := none, auto_gateway := none, auto_routes := none,
             auto_table_id := none }
  else s

/-- InterfaceIpv4::update: copy each field whose name the patch's
prop_list declares, push the patch's declared names missing from the
base's list, then run cleanup. -/
def InterfaceIpv4.update (s other : InterfaceIpv4) : InterfaceIpv4 :=
  let s := if "enabled" ∈ other.prop_list then { s with enabled := other.enabled } else s
  let s := if "dhcp" ∈ other.prop_list then { s with dhcp := other.dhcp } else s
  let s := if "addresses" ∈ other.prop_list then { s with addresses := other.addresses } else s
  let s := if "dns" ∈ other.prop_list then { s with dns := other.dns } else s
  let s := if "auto_dns" ∈ other.prop_list then { s with auto_dns := other.auto_dns } else s
  let s := if "auto_gateway" ∈ other.prop_list then { s with auto_gateway := other.auto_gateway } else s
  let s := if "auto_routes" ∈ other.prop_list then { s with auto_routes := other.auto_routes } else s
  let s := if "auto_table_id" ∈ other.prop_list then { s with auto_table_id := other.auto_table_id } else s
  let s := { s with prop_list := unionProps s.prop_list other.prop_list }
  s.cleanup

/-- InterfaceIpv4::pre_edit_cleanup: in automatic mode default the unset
auto options to true and drop a non-empty static address list, then run
cleanup. -/
def InterfaceIpv4.pre_edit_cleanup (s : InterfaceIpv4) : InterfaceIpv4 :=
  let s :=
    if s.is_auto then
      let s := if s.auto_dns = none then { s with auto_dns := some true } else s
      let s := if s.auto_routes = none then { s with auto_routes := some true } else s
      let s := if s.auto_gateway = none then { s with auto_gateway := some true } else s
      if !(s.addresses.getD []).isEmpty then { s with addresses := none } else s
    else s
  s.cleanup

/-- InterfaceIpv4::pre_verify_cleanup: cleanup, drop addresses under
DHCP, sort the remaining addresses, canonicalize dhcp to Some(false)
when not Some(true). -/
def InterfaceIpv4.pre_verify_cleanup (s : InterfaceIpv4) : InterfaceIpv4 :=
  let s := s.cleanup
  let s := if s.dhcp = some true then { s with addresses := none } else s
  let s :=
    match s.addresses with
    | some addrs => { s with addresses := some (sortAddrs addrs) }
    | none => s
  if s.dhcp ≠ some true then { s with dhcp := some false } else s

/-- InterfaceIpv6 (ip.rs): like InterfaceIpv4 plus the autoconf switch. -/
structure InterfaceIpv6 where
  enabled : Bool
  prop_list : List String
  dhcp : Option Bool
  autoconf : Option Bool
  addresses : Option (List InterfaceIpAddr)
  dns : Option DnsClientState
  auto_dns : Option Bool
  auto_gateway : Option Bool
  auto_routes : Option Bool
  auto_table_id : Option Nat
deriving DecidableEq, Repr

/-- InterfaceIpv6::default(). -/
def InterfaceIpv6.empty : InterfaceIpv6 :=
  { enabled := false, prop_list := [], dhcp := none, autoconf := none, addresses := none,
    dns := none, auto_dns := none, auto_gateway := none, auto_routes := none,
    auto_table_id := none }

/-- InterfaceIpv6::is_auto. -/
def InterfaceIpv6.is_auto (s : InterfaceIpv6) : Bool :=
  s.enabled && (s.dhcp = some true || s.autoconf = some true)

/-- InterfaceIpv6::cleanup. -/
def InterfaceIpv6.cleanup (s : InterfaceIpv6) : InterfaceIpv6 :=
  let s := if !s.enabled then { s with dhcp := none, autoconf := none, addresses := none } else s
  if !s.is_auto then
    { s with auto_dns := none, auto_gateway := none, auto_routes := none,
             auto_table_id := none }
  else s

/-- InterfaceIpv6::update. -/
def InterfaceIpv6.update (s other : InterfaceIpv6) : InterfaceIpv6 :=
  let s := if "enabled" ∈ other.prop_list then { s with enabled := other.enabled } else s
  let s := if "dhcp" ∈ other.prop_list then { s with dhcp := other.dhcp } else s
  let s := if "autoconf" ∈ other.prop_list then { s with autoconf := other.autoconf } else s
  let s := if "addresses" ∈ other.prop_list then { s with addresses := other.addresses } else s
  let s := if "auto_dns" ∈ other.prop_list then { s with auto_dns := other.auto_dns } else s
  let s := if "auto_gateway" ∈ other.prop_list then { s with auto_gateway := other.auto_gateway } else s
  let s := if "auto_routes" ∈ other.prop_list then { s with auto_routes := other.auto_routes } else s
  let s := if "auto_table_id" ∈ other.prop_list then { s with auto_table_id := other.auto_table_id } else s
  let s := if "dns" ∈ other.prop_list then { s with dns := other.dns } else s
  let s := { s with prop_list := unionProps s.prop_list other.prop_list }
  s.cleanup

/-- The link-local filter both IPv6 cleanup passes run over an address
list (`retain` keeps the addresses the string test does not classify as
unicast link-local). -/
def dropLinkLocal (addrs : List InterfaceIpAddr) : List InterfaceIpAddr :=
  addrs.filter (fun a => !is_ipv6_unicast_link_local a.ip.toStr a.prefix_length)

/-- InterfaceIpv6::pre_verify_cleanup: cleanup, drop addresses in
automatic mode, filter link-local addresses, sort, canonicalize dhcp and
autoconf to Some(false) when not Some(true). -/
def InterfaceIpv6.pre_verify_cleanup (s : InterfaceIpv6) : InterfaceIpv6 :=
  let s := s.cleanup
  let s := if s.is_auto then { s with addresses := none } else s
  let s :=
    match s.addresses with
    | some addrs => { s with addresses := some (dropLinkLocal addrs) }
    | none => s
  let s :=
    match s.addresses with
    | some addrs => { s with addresses := some (sortAddrs addrs) }
    | none => s
  let s := if s.dhcp ≠ some true then { s with dhcp := some false } else s
  if s.autoconf ≠ some true then { s with autoconf := some false } else s

/-- InterfaceIpv6::pre_edit_cleanup: filter link-local addresses, in
automatic mode default the unset auto options to true and drop a
non-empty static address list, then run cleanup. -/
def InterfaceIpv6.pre_edit_cleanup (s : InterfaceIpv6) : InterfaceIpv6 :=
  let s :=
    match s.addresses with
    | some addrs => { s with addresses := some (dropLinkLocal addrs) }
    | none => s
  let s :=
    if s.is_auto then
      let s := if s.auto_dns = none then { s with auto_dns := some true } else s
      let s := if s.auto_routes = none then { s with auto_routes := some true } else s
      let s := if s.auto_gateway = none then { s with auto_gateway := some true } else s
      if !(s.addresses.getD []).isEmpty then { s with addresses := none } else s
    else s
  s.cleanup

/-- The per-field PATCH merge the spec describes for `merge_update`
("for every field name present in patch's declared-field set, copy that
field's value from patch into base; union the declared-field sets"),
written from the spec's words for comparison with the source's update. -/
def patchFieldsV4 (b p : InterfaceIpv4) : InterfaceIpv4 :=
  { enabled := if "enabled" ∈ p.prop_list then p.enabled else b.enabled,
    prop_list := unionProps b.prop_list p.prop_list,
    dhcp := if "dhcp" ∈ p.prop_list then p.dhcp else b.dhcp,
    addresses := if "addresses" ∈ p.prop_list then p.addresses else b.addresses,
    dns := if "dns" ∈ p.prop_list then p.dns else b.dns,
    auto_dns := if "auto_dns" ∈ p.prop_list then p.auto_dns else b.auto_dns,
    auto_gateway := if "auto_gateway" ∈ p.prop_list then p.auto_gateway else b.auto_gateway,
    auto_routes := if "auto_routes" ∈ p.prop_list then p.auto_routes else b.auto_routes,
    auto_table_id := if "auto_table_id" ∈ p.prop_list then p.auto_table_id else b.auto_table_id }

/-- The per-field PATCH merge the spec describes, IPv6 variant, written
from the spec's words for comparison with the source's update. -/
def patchFieldsV6 (b p : InterfaceIpv6) : InterfaceIpv6 :=
  { enabled := if "enabled" ∈ p.prop_list then p.enabled else b.enabled,
    prop_list := unionProps b.prop_list p.prop_list,
    dhcp := if "dhcp" ∈ p.prop_list then p.dhcp else b.dhcp,
    autoconf := if "autoconf" ∈ p.prop_list then p.autoconf else b.autoconf,
    addresses := if "addresses" ∈ p.prop_list then p.addresses else b.addresses,
    dns := if "dns" ∈ p.prop_list then p.dns else b.dns,
    auto_dns := if "auto_dns" ∈ p.prop_list then p.auto_dns else b.auto_dns,
    auto_gateway := if "auto_gateway" ∈ p.prop_list then p.auto_gateway else b.auto_gateway,
    auto_routes := if "auto_routes" ∈ p.prop_list then p.auto_routes else b.auto_routes,
    auto_table_id := if "auto_table_id" ∈ p.prop_list then p.auto_table_id else b.auto_table_id }

/-- A kernel interface reduced to its base record's two IP configs.
Modelled from the spec: the Interface enum and BaseInterface struct are
repo code outside the given sources; ip.rs only reaches them through
base_iface().ipv4 and .ipv6. -/
structure BaseInterface where
  ipv4 : Option InterfaceIpv4
  ipv6 : Option InterfaceIpv6
deriving DecidableEq

/-- The Interfaces collection. Modelled from the spec: kernel_ifaces is
a name-keyed map in the repo code outside the given sources; an
association list with first-match lookup embeds it. -/
structure Interfaces where
  kernel_ifaces : List (String × BaseInterface)
deriving DecidableEq

/-- Lookup of one interface by name (kernel_ifaces.get). -/
def Interfaces.get (s : Interfaces) (n : String) : Option BaseInterface :=
  List.lookup n s.kernel_ifaces

/-- The IPv4 block of the include_current_ip_address_if_dhcp_on_to_off
loop body: when the current IPv4 config is automatic and has an address
list, and the desired IPv4 config is enabled, not automatic and has no
address list, copy the current addresses into the desired config. -/
def retainV4 (cur_iface iface : BaseInterface) : BaseInterface :=
  match cur_iface.ipv4 with
  | some cur_ip_conf =>
    if cur_ip_conf.is_auto && cur_ip_conf.addresses.isSome then
      match iface.ipv4 with
      | some ip_conf =>
        if ip_conf.enabled && !ip_conf.is_auto && ip_conf.addresses.isNone then
          { iface with ipv4 := some { ip_conf with addresses := cur_ip_conf.addresses } }
        else iface
      | none => iface
    else iface
  | none => iface

/-- The IPv6 block of the loop body, identical in shape to the IPv4 one. -/
def retainV6 (cur_iface iface : BaseInterface) : BaseInterface :=
  match cur_iface.ipv6 with
  | some cur_ip_conf =>
    if cur_ip_conf.is_auto && cur_ip_conf.addresses.isSome then
      match iface.ipv6 with
      | some ip_conf =>
        if ip_conf.enabled && !ip_conf.is_auto && ip_conf.addresses.isNone then
          { iface with ipv6 := some { ip_conf with addresses := cur_ip_conf.addresses } }
        else iface
      | none => iface
    else iface
  | none => iface

/-- The body of include_current_ip_address_if_dhcp_on_to_off for one
interface present in both states: the IPv4 block then the IPv6 block. -/
def retainIfaceStep (cur_iface iface : BaseInterface) : BaseInterface :=
  retainV6 cur_iface (retainV4 cur_iface iface)

/-- include_current_ip_address_if_dhcp_on_to_off (ip.rs): iterate the
desired state's kernel interfaces; those missing from the current state
are skipped, the others go through retainIfaceStep. -/
def include_current_ip_address_if_dhcp_on_to_off
    (chg_net_state current : Interfaces) : Interfaces :=
  ⟨chg_net_state.kernel_ifaces.map (fun pr =>
    match current.get pr.1 with
    | none => pr
    | some cur_iface => (pr.1, retainIfaceStep cur_iface pr.2))⟩

/-- NmConnection, reduced to an opaque identifier. Modelled from the
spec: connection.rs is outside the given sources and nm_api.rs only
moves whole connection values. -/
structure NmConnection where
  id : String
deriving DecidableEq

/-- NmActiveConnection, reduced to an opaque identifier. Modelled from
the spec: active_connection.rs is outside the given sources. -/
structure NmActiveConnection where
  id : String
deriving DecidableEq

/-- NmDeviceState. Modelled from the spec: device.rs is outside the
given sources; the poller consults IpConfig and Deactivating, the other
constructors stand for the remaining NetworkManager device states. -/
inductive NmDeviceState
  | unknown
  | unmanaged
  | unavailable
  | disconnected
  | prepare
  | config
  | needAuth
  | ipConfig
  | ipCheck
  | secondaries
  | activated
  | deactivating
  | failed
deriving DecidableEq, Repr

/-- NmDeviceStateReason. Modelled from the spec: device.rs is outside
the given sources; the poller consults only NewActivation. -/
inductive NmDeviceStateReason
  | noReason
  | unknown
  | newActivation
deriving DecidableEq, Repr

/-- NmDevice, reduced to the fields nm_api.rs reads. Modelled from the
spec for the rest of the struct (device.rs outside the given sources). -/
structure NmDevice where
  name : String
  state : NmDeviceState
  state_reason : NmDeviceStateReason
deriving DecidableEq, Repr

/-- The injected daemon client (struct NmDbus, dbus.rs): each call the
nm_api.rs code under study issues is a field, an Except value or
function so a test environment can make any call succeed or fail.
Modelled from the spec's §6 daemon client contract (dbus.rs is outside
the given sources). -/
structure NmDbus where
  checkpoints : Except NmError (List String)
  checkpoint_destroy : String → Except NmError Unit
  checkpoint_rollback : String → Except NmError Unit
  nm_conn_obj_paths_get : Except NmError (List String)
  conn_from_obj_path : String → Except NmError NmConnection
  nm_dev_obj_paths_get : Except NmError (List String)
  dev_from_obj_path : String → Except NmError NmDevice
  active_connections : Except NmError (List String)
  ac_from_obj_path : String → Except NmError (Option NmActiveConnection)

/-- NmApi::last_active_checkpoint: first entry of the daemon's
checkpoint listing, NotFound when the listing is empty. -/
def NmApi.last_active_checkpoint (d : NmDbus) : Except NmError String :=
  match d.checkpoints with
  | .error e => .error e
  | .ok checkpoints =>
    if !checkpoints.isEmpty then .ok (checkpoints.headD "")
    else .error ⟨.notFound, "Not active checkpoints"⟩

/-- NmApi::checkpoint_destroy: an empty handle is resolved through
last_active_checkpoint, then the daemon destroy call is issued. -/
def NmApi.checkpoint_destroy (d : NmDbus) (checkpoint : String) : Except NmError Unit :=
  if checkpoint = "" then
    match NmApi.last_active_checkpoint d with
    | .error e => .error e
    | .ok resolved => d.checkpoint_destroy resolved
  else d.checkpoint_destroy checkpoint

/-- NmApi::checkpoint_rollback: same handle resolution as destroy, then
the daemon rollback call. -/
def NmApi.checkpoint_rollback (d : NmDbus) (checkpoint : String) : Except NmError Unit :=
  if checkpoint = "" then
    match NmApi.last_active_checkpoint d with
    | .error e => .error e
    | .ok resolved => d.checkpoint_rollback resolved
  else d.checkpoint_rollback checkpoint

/-- The resolution loop of NmApi::connections_get: each object path is
resolved, failures are dropped. -/
def collectConns (d : NmDbus) : List String → List NmConnection
  | [] => []
  | p :: rest =>
    match d.conn_from_obj_path p with
    | .ok c => c :: collectConns d rest
    | .error _ => collectConns d rest

/-- NmApi::connections_get. -/
def NmApi.connections_get (d : NmDbus) : Except NmError (List NmConnection) :=
  match d.nm_conn_obj_paths_get with
  | .error e => .error e
  | .ok paths => .ok (collectConns d paths)

/-- The resolution loop of NmApi::devices_get. -/
def collectDevs (d : NmDbus) : List String → List NmDevice
  | [] => []
  | p :: rest =>
    match d.dev_from_obj_path p with
    | .ok dev => dev :: collectDevs d rest
    | .error _ => collectDevs d rest

/-- NmApi::devices_get. -/
def NmApi.devices_get (d : NmDbus) : Except NmError (List NmDevice) :=
  match d.nm_dev_obj_paths_get with
  | .error e => .error e
  | .ok paths => .ok (collectDevs d paths)

/-- The resolution loop of NmApi::active_connections_get: only an Ok
carrying Some is pushed. -/
def collectAcs (d : NmDbus) : List String → List NmActiveConnection
  | [] => []
  | p :: rest =>
    match d.ac_from_obj_path p with
    | .ok (some ac) => ac :: collectAcs d rest
    | _ => collectAcs d rest

/-- NmApi::active_connections_get. -/
def NmApi.active_connections_get (d : NmDbus) : Except NmError (List NmActiveConnection) :=
  match d.active_connections with
  | .error e => .error e
  | .ok paths => .ok (collectAcs d paths)

/-- The waiting classification of NmApi::wait_checkpoint_rollback: a
device waits when its state-change reason is NewActivation or its state
is IpConfig or Deactivating. -/
def deviceIsWaiting (dev : NmDevice) : Bool :=
  dev.state_reason == .newActivation || dev.state == .ipConfig
    || dev.state == .deactivating

/-- The polling loop of NmApi::wait_checkpoint_rollback over an
idealized clock: `devs k` is the listing the k-th poll returns, each
poll after the first follows a 500 ms sleep, and `fuel` counts the polls
the while condition still admits; when it runs out the loop fails with
Timeout. -/
def rollbackWaitLoop (devs : Nat → List NmDevice) : Nat → Nat → Except NmError Unit
  | _, 0 => .error ⟨.timeout, "Timeout on waiting rollback"⟩
  | k, fuel + 1 =>
    if ((devs k).filter deviceIsWaiting).isEmpty then .ok ()
    else rollbackWaitLoop devs (k + 1) fuel

/-- NmApi::wait_checkpoint_rollback with `timeout` in seconds: the k-th
poll happens at elapsed time 500k ms, and the while condition
elapsed ≤ timeout admits exactly the polls with k ≤ 2·timeout, i.e.
2·timeout + 1 polls. -/
def NmApi.wait_checkpoint_rollback (devs : Nat → List NmDevice) (timeout : Nat) :
    Except NmError Unit :=
  rollbackWaitLoop devs 0 (2 * timeout + 1)

/-- Vec::resize(2, ""): truncate or pad the split list to exactly two
entries. -/
def resizeTwo (a : List String) : List String := (a ++ ["", ""]).take 2

/-- Rust's value.split('/') over the character list: every slash
separates two pieces, empty pieces are kept, the empty string yields
one empty piece. -/
def splitSlashAux : List Char → List Char → List String
  | [], acc => [String.mk acc.reverse]
  | ch :: rest, acc =>
    if ch = '/' then String.mk acc.reverse :: splitSlashAux rest []
    else splitSlashAux rest (ch :: acc)

/-- The pieces of a string between its slashes. -/
def splitSlash (s : String) : List String := splitSlashAux s.data []

/-- The text before the first slash: addr[0] after the resize. -/
def slashHead (value : String) : String := (resizeTwo (splitSlash value)).getD 0 ""

/-- The text between the first and the second slash, or the empty
string when there is none: addr[1] after the resize. -/
def slashSecond (value : String) : String := (resizeTwo (splitSlash value)).getD 1 ""

/-- TryFrom for InterfaceIpAddr (ip.rs), parameterized by the two
std parsing functions it calls (IpAddr::from_str and str::parse::<u8>,
both external library code): split on slashes, parse the first
component as an address, default or parse the second as the prefix. -/
def interfaceIpAddrFromStr (ipFromStr : String → Option IpAddr)
    (u8FromStr : String → Option Nat) (value : String) :
    Except NmstateError InterfaceIpAddr :=
  match ipFromStr (slashHead value) with
  | none => .error ⟨.invalidArgument, "Invalid IP address " ++ slashHead value⟩
  | some ip =>
    if slashSecond value = "" then .ok ⟨ip, if ip.is_ipv6 then 128 else 32⟩
    else
      match u8FromStr (slashSecond value) with
      | none => .error ⟨.invalidArgument, "Invalid IP address " ++ value⟩
      | some p => .ok ⟨ip, p⟩

/-- The parse outcome stripped of its error payload, for stating that
trailing slash components change nothing observable but the message. -/
def exceptToOption {e a : Type} : Except e a → Option a
  | .ok x => some x
  | .error _ => none

/-- A daemon record with two active checkpoints whose destroy and
rollback calls echo the handle they were issued with inside the error
payload, so theorems can observe which handle was used. -/
def c6Dbus : NmDbus :=
  { checkpoints := .ok ["cp-2", "cp-1"],
    checkpoint_destroy := fun h => .error ⟨.dbusFailure, h⟩,
    checkpoint_rollback := fun h => .error ⟨.dbusFailure, h⟩,
    nm_conn_obj_paths_get := .ok [],
    conn_from_obj_path := fun _ => .error ⟨.dbusFailure, ""⟩,
    nm_dev_obj_paths_get := .ok [],
    dev_from_obj_path := fun _ => .error ⟨.dbusFailure, ""⟩,
    active_connections := .ok [],
    ac_from_obj_path := fun _ => .ok none }

/-- The same daemon record with no active checkpoint. -/
def c6DbusEmpty : NmDbus := { c6Dbus with checkpoints := .ok [] }

/-- A daemon record listing two connection object paths of which only
the first resolves, the second failing as a concurrently deleted object
would. -/
def c9Dbus : NmDbus :=
  { c6Dbus with
      nm_conn_obj_paths_get := .ok ["a", "b"],
      conn_from_obj_path := fun p =>
        if p = "a" then .ok ⟨"a"⟩ else .error ⟨.dbusFailure, p⟩,
      nm_dev_obj_paths_get := .ok ["da", "db"],
      dev_from_obj_path := fun p =>
        if p = "da" then .ok ⟨"da", .activated, .noReason⟩
        else .error ⟨.dbusFailure, p⟩,
      active_connections := .ok ["aa", "ab"],
      ac_from_obj_path := fun p =>
        if p = "aa" then .ok (some ⟨"aa"⟩) else .error ⟨.dbusFailure, p⟩ }

/-- A device still deactivating after the rollback. -/
def c7Waiting : NmDevice := ⟨"eth0", .deactivating, .noReason⟩

/-- A settled device. -/
def c7Settled : NmDevice := ⟨"eth0", .disconnected, .noReason⟩

/-- Listings that report the deactivating device twice and then the
settled one. -/
def c7DevsSettle : Nat → List NmDevice :=
  fun k => if k < 2 then [c7Waiting] else [c7Settled]

/-- Listings that report a device stuck acquiring IP configuration. -/
def c7DevsStuck : Nat → List NmDevice := fun _ => [⟨"eth0", .ipConfig, .noReason⟩]

/-- The parsed form of 1.2.3.4 (16909060 is its 32-bit value). -/
def c10Ip : IpAddr := mkV4 16909060

/-- A stand-in for IpAddr::from_str accepting exactly 1.2.3.4. -/
def c10IpFromStr : String → Option IpAddr :=
  fun s => if s = "1.2.3.4" then some c10Ip else none

/-- A stand-in for str::parse::<u8> accepting exactly 24. -/
def c10U8FromStr : String → Option Nat :=
  fun s => if s = "24" then some 24 else none

/-- Example base config for the merge claims: declared field set
consisting of enabled alone. -/
def c1Base : InterfaceIpv4 :=
  { InterfaceIpv4.empty with enabled := true, prop_list := ["enabled"] }

/-- Example patch config for the merge claims: declared field set
consisting of dhcp alone. -/
def c1Patch : InterfaceIpv4 :=
  { InterfaceIpv4.empty with dhcp := some true, prop_list := ["dhcp"] }

/-- A disabled IPv4 config (enabled = false, nothing else set). -/
def c2Disabled : InterfaceIpv4 := InterfaceIpv4.empty

/-- A disabled IPv6 config. -/
def c2DisabledV6 : InterfaceIpv6 := InterfaceIpv6.empty

/-- Address 10.0.0.1/24 (167772161 is its 32-bit value). -/
def c3AddrA : InterfaceIpAddr := ⟨mkV4 167772161, 24⟩

/-- Address 10.0.0.2/24. -/
def c3AddrB : InterfaceIpAddr := ⟨mkV4 167772162, 24⟩

/-- A static IPv4 config carrying the two addresses out of order. -/
def c3Cfg : InterfaceIpv4 :=
  { InterfaceIpv4.empty with enabled := true, addresses := some [c3AddrB, c3AddrA] }

/-- The spec's auto-mode-default example: an enabled IPv6 config with
dhcp on and auto_dns unset. -/
def c8Cfg : InterfaceIpv6 :=
  { InterfaceIpv6.empty with enabled := true, dhcp := some true }

/-- The address fe8::1/64: its first segment is 0x0fe8, so its first 10
bits are not 1111111010 and it is not link-local, yet its canonical
textual form starts with the three characters fe8. -/
def c5Fe8 : InterfaceIpAddr := ⟨mkV6 (4072 * 2 ^ 112 + 1), 64⟩

/-- The genuine link-local address fe80::1/64. -/
def c5LinkLocal : InterfaceIpAddr := ⟨mkV6 (65152 * 2 ^ 112 + 1), 64⟩

/-- The global address 2001:db8::1/64. -/
def c5Global : InterfaceIpAddr := ⟨mkV6 (8193 * 2 ^ 112 + 3512 * 2 ^ 96 + 1), 64⟩

/-- An enabled static IPv6 config whose only address is fe8::1/64. -/
def c5Cfg : InterfaceIpv6 :=
  { InterfaceIpv6.empty with enabled := true, addresses := some [c5Fe8] }

/-- An enabled static IPv6 config listing fe80::1/64 and 2001:db8::1/64. -/
def c5CfgB : InterfaceIpv6 :=
  { InterfaceIpv6.empty with enabled := true, addresses := some [c5LinkLocal, c5Global] }

/-- A current-state IPv4 config in automatic mode carrying an empty
resolved address list (the addresses field is Some with no entries). -/
def c4CurAuto : InterfaceIpv4 :=
  { InterfaceIpv4.empty with enabled := true, dhcp := some true, addresses := some [] }

/-- A desired-state IPv4 config switching to manual with no address
list given. -/
def c4DesManual : InterfaceIpv4 :=
  { InterfaceIpv4.empty with enabled := true, dhcp := some false }

/-- The spec's retained-address example current config: automatic with
the resolved address 10.0.0.5/24 (167772165 is its 32-bit value). -/
def c4CurFull : InterfaceIpv4 :=
  { InterfaceIpv4.empty with
      enabled := true
      dhcp := some true
      addresses := some [⟨mkV4 167772165, 24⟩] }

/-- Desired one-interface state for the counterexample. -/
def c4Chg : Interfaces := ⟨[("eth0", ⟨some c4DesManual, none⟩)]⟩

/-- Current one-interface state for the counterexample: automatic with
an empty address list. -/
def c4Cur : Interfaces := ⟨[("eth0", ⟨some c4CurAuto, none⟩)]⟩

/-- Current one-interface state for the witness, per the spec example. -/
def c4CurB : Interfaces := ⟨[("eth0", ⟨some c4CurFull, none⟩)]⟩

/-- Membership in the prop_list union loop: a name is in the result
exactly when it is in one of the two lists. -/
theorem mem_unionProps (s : String) (other : List String) :
    ∀ base, s ∈ unionProps base other ↔ s ∈ base ∨ s ∈ other := by
  induction other with
  | nil => intro base; simp [unionProps]
  | cons n rest ih =>
    intro base
    show s ∈ unionProps (if n ∈ base then base else base ++ [n]) rest ↔ _
    rw [ih]
    by_cases h : n ∈ base
    · simp only [if_pos h, List.mem_cons]
      constructor
      · rintro (hb | hr)
        · exact Or.inl hb
        · exact Or.inr (Or.inr hr)
      · rintro (hb | rfl | hr)
        · exact Or.inl hb
        · exact Or.inl h
        · exact Or.inr hr
    · simp only [if_neg h, List.mem_append, List.mem_singleton, List.mem_cons]
      tauto

/-- cleanup does not change the IPv4 declared-field list. -/
theorem cleanup4_prop_list (s : InterfaceIpv4) :
    (InterfaceIpv4.cleanup s).prop_list = s.prop_list := by
  unfold InterfaceIpv4.cleanup
  dsimp only
  split_ifs <;> rfl

/-- cleanup does not change the IPv6 declared-field list. -/
theorem cleanup6_prop_list (s : InterfaceIpv6) :
    (InterfaceIpv6.cleanup s).prop_list = s.prop_list := by
  unfold InterfaceIpv6.cleanup
  dsimp only
  split_ifs <;> rfl

/-- The source's sequential IPv4 update is the spec's per-field PATCH
merge followed by cleanup. -/
theorem upd4_eq (b p : InterfaceIpv4) :
    InterfaceIpv4.update b p = InterfaceIpv4.cleanup (patchFieldsV4 b p) := by
  unfold InterfaceIpv4.update patchFieldsV4
  dsimp only
  congr 1
  simp only [apply_ite InterfaceIpv4.enabled, apply_ite InterfaceIpv4.prop_list,
    apply_ite InterfaceIpv4.dhcp, apply_ite InterfaceIpv4.addresses,
    apply_ite InterfaceIpv4.dns, apply_ite InterfaceIpv4.auto_dns,
    apply_ite InterfaceIpv4.auto_gateway, apply_ite InterfaceIpv4.auto_routes,
    apply_ite InterfaceIpv4.auto_table_id]
  simp [ite_self]

/-- The source's sequential IPv6 update is the spec's per-field PATCH
merge followed by cleanup. -/
theorem upd6_eq (b p : InterfaceIpv6) :
    InterfaceIpv6.update b p = InterfaceIpv6.cleanup (patchFieldsV6 b p) := by
  unfold InterfaceIpv6.update patchFieldsV6
  dsimp only
  congr 1
  simp only [apply_ite InterfaceIpv6.enabled, apply_ite InterfaceIpv6.prop_list,
    apply_ite InterfaceIpv6.dhcp, apply_ite InterfaceIpv6.autoconf,
    apply_ite InterfaceIpv6.addresses, apply_ite InterfaceIpv6.dns,
    apply_ite InterfaceIpv6.auto_dns, apply_ite InterfaceIpv6.auto_gateway,
    apply_ite InterfaceIpv6.auto_routes, apply_ite InterfaceIpv6.auto_table_id]
  simp [ite_self]

/-- The declared-field list the IPv4 update leaves is the union of the
two lists, element-wise. -/
theorem upd4_props (b p : InterfaceIpv4) (s : String) :
    s ∈ (InterfaceIpv4.update b p).prop_list ↔ s ∈ b.prop_list ∨ s ∈ p.prop_list := by
  rw [upd4_eq, cleanup4_prop_list]
  show s ∈ unionProps b.prop_list p.prop_list ↔ _
  exact mem_unionProps s p.prop_list b.prop_list

/-- The declared-field list the IPv6 update leaves is the union of the
two lists, element-wise. -/
theorem upd6_props (b p : InterfaceIpv6) (s : String) :
    s ∈ (InterfaceIpv6.update b p).prop_list ↔ s ∈ b.prop_list ∨ s ∈ p.prop_list := by
  rw [upd6_eq, cleanup6_prop_list]
  show s ∈ unionProps b.prop_list p.prop_list ↔ _
  exact mem_unionProps s p.prop_list b.prop_list

/-- C1: merge_update has PATCH semantics: the source's update equals the
spec's merge (each field declared by the patch copied from the patch,
each undeclared field kept from the base) followed by cleanup, and the
resulting declared-field set is the union of the two sets. -/
theorem merge_update_patch_semantics :
    ∀ (b4 p4 : InterfaceIpv4) (b6 p6 : InterfaceIpv6),
      InterfaceIpv4.update b4 p4 = InterfaceIpv4.cleanup (patchFieldsV4 b4 p4)
      ∧ InterfaceIpv6.update b6 p6 = InterfaceIpv6.cleanup (patchFieldsV6 b6 p6)
      ∧ (∀ s : String,
          s ∈ (InterfaceIpv4.update b4 p4).prop_list ↔ s ∈ b4.prop_list ∨ s ∈ p4.prop_list)
      ∧ (∀ s : String,
          s ∈ (InterfaceIpv6.update b6 p6).prop_list ↔ s ∈ b6.prop_list ∨ s ∈ p6.prop_list) :=
  fun b4 p4 b6 p6 =>
    ⟨upd4_eq b4 p4, upd6_eq b6 p6, upd4_props b4 p4, upd6_props b6 p6⟩

/-- C1 witness: the spec's field-scoped example. A base declaring only
enabled merged with a patch declaring only dhcp keeps the base's enabled
and takes the patch's dhcp, and the declared set becomes the union. -/
theorem merge_update_patch_semantics_witness :
    (InterfaceIpv4.update c1Base c1Patch).enabled = true
    ∧ (InterfaceIpv4.update c1Base c1Patch).dhcp = some true
    ∧ ("enabled" ∈ (InterfaceIpv4.update c1Base c1Patch).prop_list
        ∧ "dhcp" ∈ (InterfaceIpv4.update c1Base c1Patch).prop_list) := by
  have h := merge_update_patch_semantics c1Base c1Patch InterfaceIpv6.empty InterfaceIpv6.empty
  refine ⟨by decide, by decide, ?_, ?_⟩
  · exact (h.2.2.1 "enabled").mpr (Or.inl (by decide))
  · exact (h.2.2.1 "dhcp").mpr (Or.inr (by decide))

/-- cleanup preserves the IPv4 enabled flag. -/
theorem cleanup4_enabled (s : InterfaceIpv4) :
    (InterfaceIpv4.cleanup s).enabled = s.enabled := by
  unfold InterfaceIpv4.cleanup
  dsimp only
  split_ifs <;> rfl

/-- cleanup preserves the IPv6 enabled flag. -/
theorem cleanup6_enabled (s : InterfaceIpv6) :
    (InterfaceIpv6.cleanup s).enabled = s.enabled := by
  unfold InterfaceIpv6.cleanup
  dsimp only
  split_ifs <;> rfl

/-- cleanup on a disabled IPv4 config clears dhcp and addresses. -/
theorem cleanup4_disabled (s : InterfaceIpv4) (h : s.enabled = false) :
    (InterfaceIpv4.cleanup s).dhcp = none ∧ (InterfaceIpv4.cleanup s).addresses = none := by
  unfold InterfaceIpv4.cleanup
  dsimp only
  simp [h]

/-- cleanup on a disabled IPv6 config clears dhcp, autoconf and addresses. -/
theorem cleanup6_disabled (s : InterfaceIpv6) (h : s.enabled = false) :
    (InterfaceIpv6.cleanup s).dhcp = none ∧ (InterfaceIpv6.cleanup s).autoconf = none
      ∧ (InterfaceIpv6.cleanup s).addresses = none := by
  unfold InterfaceIpv6.cleanup InterfaceIpv6.is_auto
  dsimp only
  simp [h]

/-- The disabled-config invariant transported through an IPv4 cleanup
call, stated on the cleanup result so callers ending in cleanup can use
it directly. -/
theorem cleanup4_inv (m : InterfaceIpv4) (h : (InterfaceIpv4.cleanup m).enabled = false) :
    (InterfaceIpv4.cleanup m).dhcp = none ∧ (InterfaceIpv4.cleanup m).addresses = none :=
  cleanup4_disabled m ((cleanup4_enabled m) ▸ h)

/-- The disabled-config invariant transported through an IPv6 cleanup call. -/
theorem cleanup6_inv (m : InterfaceIpv6) (h : (InterfaceIpv6.cleanup m).enabled = false) :
    (InterfaceIpv6.cleanup m).dhcp = none ∧ (InterfaceIpv6.cleanup m).autoconf = none
      ∧ (InterfaceIpv6.cleanup m).addresses = none :=
  cleanup6_disabled m ((cleanup6_enabled m) ▸ h)

/-- pre_verify_cleanup preserves the IPv4 enabled flag. -/
theorem pv4_enabled (x : InterfaceIpv4) :
    (InterfaceIpv4.pre_verify_cleanup x).enabled = x.enabled := by
  unfold InterfaceIpv4.pre_verify_cleanup
  dsimp only
  (repeat' split) <;> simp [cleanup4_enabled]

/-- pre_verify_cleanup preserves the IPv6 enabled flag. -/
theorem pv6_enabled (x : InterfaceIpv6) :
    (InterfaceIpv6.pre_verify_cleanup x).enabled = x.enabled := by
  unfold InterfaceIpv6.pre_verify_cleanup
  dsimp only
  (repeat' split) <;> simp [cleanup6_enabled]

/-- pre_verify_cleanup on a disabled IPv4 config: dhcp is canonicalized
to Some(false), addresses stay cleared. -/
theorem pv4_disabled (x : InterfaceIpv4) (h : x.enabled = false) :
    (InterfaceIpv4.pre_verify_cleanup x).dhcp = some false
      ∧ (InterfaceIpv4.pre_verify_cleanup x).addresses = none := by
  obtain ⟨hd, ha⟩ := cleanup4_disabled x h
  unfold InterfaceIpv4.pre_verify_cleanup
  dsimp only
  simp [hd, ha]

/-- pre_verify_cleanup on a disabled IPv6 config. -/
theorem pv6_disabled (x : InterfaceIpv6) (h : x.enabled = false) :
    (InterfaceIpv6.pre_verify_cleanup x).dhcp = some false
      ∧ (InterfaceIpv6.pre_verify_cleanup x).autoconf = some false
      ∧ (InterfaceIpv6.pre_verify_cleanup x).addresses = none := by
  obtain ⟨hd, hac, ha⟩ := cleanup6_disabled x h
  unfold InterfaceIpv6.pre_verify_cleanup
  dsimp only
  simp [hd, hac, ha, InterfaceIpv6.is_auto, cleanup6_enabled, h]

/-- pre_edit_cleanup ends in cleanup, so a disabled result obeys the
IPv4 disabled invariant. -/
theorem pe4_disabled (x : InterfaceIpv4)
    (h : (InterfaceIpv4.pre_edit_cleanup x).enabled = false) :
    (InterfaceIpv4.pre_edit_cleanup x).dhcp = none
      ∧ (InterfaceIpv4.pre_edit_cleanup x).addresses = none :=
  cleanup4_inv _ h

/-- pre_edit_cleanup ends in cleanup, so a disabled result obeys the
IPv6 disabled invariant. -/
theorem pe6_disabled (x : InterfaceIpv6)
    (h : (InterfaceIpv6.pre_edit_cleanup x).enabled = false) :
    (InterfaceIpv6.pre_edit_cleanup x).dhcp = none
      ∧ (InterfaceIpv6.pre_edit_cleanup x).autoconf = none
      ∧ (InterfaceIpv6.pre_edit_cleanup x).addresses = none :=
  cleanup6_inv _ h

/-- update ends in cleanup, so a disabled merge result obeys the IPv4
disabled invariant. -/
theorem upd4_disabled (b p : InterfaceIpv4)
    (h : (InterfaceIpv4.update b p).enabled = false) :
    (InterfaceIpv4.update b p).dhcp = none
      ∧ (InterfaceIpv4.update b p).addresses = none := by
  rw [upd4_eq] at h ⊢
  exact cleanup4_inv _ h

/-- update ends in cleanup, so a disabled merge result obeys the IPv6
disabled invariant. -/
theorem upd6_disabled (b p : InterfaceIpv6)
    (h : (InterfaceIpv6.update b p).enabled = false) :
    (InterfaceIpv6.update b p).dhcp = none
      ∧ (InterfaceIpv6.update b p).autoconf = none
      ∧ (InterfaceIpv6.update b p).addresses = none := by
  rw [upd6_eq] at h ⊢
  exact cleanup6_inv _ h

/-- C2 counterexample: on the disabled config, pre_verify_cleanup (one
of the three normalization passes the claim names) leaves dhcp equal to
Some(false), not None as the claim requires. -/
theorem disabled_invariant_counterexample :
    (InterfaceIpv4.pre_verify_cleanup c2Disabled).enabled = false
    ∧ (InterfaceIpv4.pre_verify_cleanup c2Disabled).dhcp = some false
    ∧ (InterfaceIpv4.pre_verify_cleanup c2Disabled).dhcp ≠ none := by
  decide

/-- C2 (amended): after the cleanup run by merge_update and after
pre_edit_cleanup, a disabled config has dhcp, autoconf (IPv6) and
addresses all None; after pre_verify_cleanup a disabled config has
addresses None while dhcp (and autoconf for IPv6) are canonicalized to
Some(false). -/
theorem disabled_invariant_amended :
    ∀ (b4 p4 x4 : InterfaceIpv4) (b6 p6 x6 : InterfaceIpv6),
      ((InterfaceIpv4.update b4 p4).enabled = false →
        (InterfaceIpv4.update b4 p4).dhcp = none
          ∧ (InterfaceIpv4.update b4 p4).addresses = none)
      ∧ ((InterfaceIpv4.pre_edit_cleanup x4).enabled = false →
        (InterfaceIpv4.pre_edit_cleanup x4).dhcp = none
          ∧ (InterfaceIpv4.pre_edit_cleanup x4).addresses = none)
      ∧ (x4.enabled = false →
        (InterfaceIpv4.pre_verify_cleanup x4).dhcp = some false
          ∧ (InterfaceIpv4.pre_verify_cleanup x4).addresses = none)
      ∧ ((InterfaceIpv6.update b6 p6).enabled = false →
        (InterfaceIpv6.update b6 p6).dhcp = none
          ∧ (InterfaceIpv6.update b6 p6).autoconf = none
          ∧ (InterfaceIpv6.update b6 p6).addresses = none)
      ∧ ((InterfaceIpv6.pre_edit_cleanup x6).enabled = false →
        (InterfaceIpv6.pre_edit_cleanup x6).dhcp = none
          ∧ (InterfaceIpv6.pre_edit_cleanup x6).autoconf = none
          ∧ (InterfaceIpv6.pre_edit_cleanup x6).addresses = none)
      ∧ (x6.enabled = false →
        (InterfaceIpv6.pre_verify_cleanup x6).dhcp = some false
          ∧ (InterfaceIpv6.pre_verify_cleanup x6).autoconf = some false
          ∧ (InterfaceIpv6.pre_verify_cleanup x6).addresses = none) :=
  fun b4 p4 x4 b6 p6 x6 =>
    ⟨upd4_disabled b4 p4, pe4_disabled x4, pv4_disabled x4,
     upd6_disabled b6 p6, pe6_disabled x6, pv6_disabled x6⟩

/-- C2 witness: the amended invariant evaluated on concrete disabled
configs. -/
theorem disabled_invariant_amended_witness :
    (InterfaceIpv4.pre_edit_cleanup c2Disabled).dhcp = none
    ∧ (InterfaceIpv4.pre_verify_cleanup c2Disabled).dhcp = some false
    ∧ (InterfaceIpv6.pre_verify_cleanup c2DisabledV6).autoconf = some false := by
  have h := disabled_invariant_amended c2Disabled c2Disabled c2Disabled
    c2DisabledV6 c2DisabledV6 c2DisabledV6
  exact ⟨(h.2.1 (by decide)).1, (h.2.2.1 (by decide)).1, (h.2.2.2.2.2 (by decide)).2.1⟩

/-- Sortedness of the embedded address sort. -/
theorem sortAddrs_sorted (l : List InterfaceIpAddr) : List.Sorted addrLe (sortAddrs l) :=
  List.sorted_insertionSort addrLe l

/-- The conjunction of the C3 properties for IPv4: dhcp totality,
address drop under automatic mode, sortedness of a surviving address
list, and the disabled case. -/
theorem pv4_parts (x : InterfaceIpv4) :
    ((InterfaceIpv4.pre_verify_cleanup x).dhcp = some true
      ∨ (InterfaceIpv4.pre_verify_cleanup x).dhcp = some false)
    ∧ (x.is_auto = true → (InterfaceIpv4.pre_verify_cleanup x).addresses = none)
    ∧ (∀ l, (InterfaceIpv4.pre_verify_cleanup x).addresses = some l → List.Sorted addrLe l)
    ∧ (x.enabled = false →
        (InterfaceIpv4.pre_verify_cleanup x).dhcp = some false
          ∧ (InterfaceIpv4.pre_verify_cleanup x).addresses = none) := by
  obtain ⟨en, pl, dh, ad, dn, a1, a2, a3, a4⟩ := x
  rcases en <;> rcases dh with _ | b <;> (try rcases b) <;> rcases ad with _ | l <;>
    simp [InterfaceIpv4.pre_verify_cleanup, InterfaceIpv4.cleanup, InterfaceIpv4.is_auto,
      sortAddrs_sorted]

/-- The conjunction of the C3 properties for IPv6: dhcp and autoconf
totality, address drop under automatic mode, sortedness of a surviving
address list, and the disabled case. -/
theorem pv6_parts (x : InterfaceIpv6) :
    ((InterfaceIpv6.pre_verify_cleanup x).dhcp = some true
      ∨ (InterfaceIpv6.pre_verify_cleanup x).dhcp = some false)
    ∧ ((InterfaceIpv6.pre_verify_cleanup x).autoconf = some true
      ∨ (InterfaceIpv6.pre_verify_cleanup x).autoconf = some false)
    ∧ (x.is_auto = true → (InterfaceIpv6.pre_verify_cleanup x).addresses = none)
    ∧ (∀ l, (InterfaceIpv6.pre_verify_cleanup x).addresses = some l → List.Sorted addrLe l)
    ∧ (x.enabled = false →
        (InterfaceIpv6.pre_verify_cleanup x).dhcp = some false
          ∧ (InterfaceIpv6.pre_verify_cleanup x).autoconf = some false
          ∧ (InterfaceIpv6.pre_verify_cleanup x).addresses = none) := by
  obtain ⟨en, pl, dh, ac, ad, dn, a1, a2, a3, a4⟩ := x
  rcases en <;> rcases dh with _ | b <;> (try rcases b) <;> rcases ac with _ | c <;>
    (try rcases c) <;> rcases ad with _ | l <;>
    simp [InterfaceIpv6.pre_verify_cleanup, InterfaceIpv6.cleanup, InterfaceIpv6.is_auto,
      sortAddrs_sorted]

/-- C3: after pre_verify_cleanup, dhcp (and autoconf for IPv6) is
Some(true) or Some(false), never None; a config in automatic mode loses
its address list; a surviving address list is sorted ascending by
(ip value, prefix length); and a disabled config ends with
dhcp = Some(false) (autoconf = Some(false) for IPv6) and no addresses. -/
theorem pre_verify_canonicalization :
    ∀ (x4 : InterfaceIpv4) (x6 : InterfaceIpv6),
      (((InterfaceIpv4.pre_verify_cleanup x4).dhcp = some true
          ∨ (InterfaceIpv4.pre_verify_cleanup x4).dhcp = some false)
        ∧ (x4.is_auto = true → (InterfaceIpv4.pre_verify_cleanup x4).addresses = none)
        ∧ (∀ l, (InterfaceIpv4.pre_verify_cleanup x4).addresses = some l →
            List.Sorted addrLe l)
        ∧ (x4.enabled = false →
            (InterfaceIpv4.pre_verify_cleanup x4).dhcp = some false
              ∧ (InterfaceIpv4.pre_verify_cleanup x4).addresses = none))
      ∧ (((InterfaceIpv6.pre_verify_cleanup x6).dhcp = some true
          ∨ (InterfaceIpv6.pre_verify_cleanup x6).dhcp = some false)
        ∧ ((InterfaceIpv6.pre_verify_cleanup x6).autoconf = some true
          ∨ (InterfaceIpv6.pre_verify_cleanup x6).autoconf = some false)
        ∧ (x6.is_auto = true → (InterfaceIpv6.pre_verify_cleanup x6).addresses = none)
        ∧ (∀ l, (InterfaceIpv6.pre_verify_cleanup x6).addresses = some l →
            List.Sorted addrLe l)
        ∧ (x6.enabled = false →
            (InterfaceIpv6.pre_verify_cleanup x6).dhcp = some false
              ∧ (InterfaceIpv6.pre_verify_cleanup x6).autoconf = some false
              ∧ (InterfaceIpv6.pre_verify_cleanup x6).addresses = none)) :=
  fun x4 x6 => ⟨pv4_parts x4, pv6_parts x6⟩

/-- C3 witness: a static config listing 10.0.0.2/24 before 10.0.0.1/24
comes out of pre_verify_cleanup with the list sorted and dhcp
canonicalized to Some(false). -/
theorem pre_verify_canonicalization_witness :
    (InterfaceIpv4.pre_verify_cleanup c3Cfg).addresses = some [c3AddrA, c3AddrB]
    ∧ List.Sorted addrLe [c3AddrA, c3AddrB]
    ∧ (InterfaceIpv4.pre_verify_cleanup c3Cfg).dhcp = some false := by
  have h := pre_verify_canonicalization c3Cfg InterfaceIpv6.empty
  have ha : (InterfaceIpv4.pre_verify_cleanup c3Cfg).addresses = some [c3AddrA, c3AddrB] := by
    decide
  exact ⟨ha, h.1.2.2.1 _ ha, by decide⟩

/-- pre_edit_cleanup on an automatic-mode IPv4 config: each unset auto
option becomes Some(true), set ones are kept, and a non-empty static
address list is dropped. -/
theorem pe4_auto (x : InterfaceIpv4) (h : x.is_auto = true) :
    (InterfaceIpv4.pre_edit_cleanup x).auto_dns
        = (if x.auto_dns = none then some true else x.auto_dns)
    ∧ (InterfaceIpv4.pre_edit_cleanup x).auto_gateway
        = (if x.auto_gateway = none then some true else x.auto_gateway)
    ∧ (InterfaceIpv4.pre_edit_cleanup x).auto_routes
        = (if x.auto_routes = none then some true else x.auto_routes)
    ∧ (InterfaceIpv4.pre_edit_cleanup x).addresses
        = (if (x.addresses.getD []).isEmpty then x.addresses else none) := by
  obtain ⟨en, pl, dh, ad, dn, a1, a2, a3, a4⟩ := x
  simp only [InterfaceIpv4.is_auto, Bool.and_eq_true, decide_eq_true_eq] at h
  obtain ⟨he, hd⟩ := h
  subst he hd
  rcases a1 <;> rcases a2 <;> rcases a3 <;> rcases ad with _ | (_ | ⟨a0, l0⟩) <;>
    simp [InterfaceIpv4.pre_edit_cleanup, InterfaceIpv4.cleanup, InterfaceIpv4.is_auto]

/-- pre_edit_cleanup on an automatic-mode IPv6 config: each unset auto
option becomes Some(true), set ones are kept, and what remains of the
address list after the link-local filter is dropped when non-empty. -/
theorem pe6_auto (x : InterfaceIpv6) (h : x.is_auto = true) :
    (InterfaceIpv6.pre_edit_cleanup x).auto_dns
        = (if x.auto_dns = none then some true else x.auto_dns)
    ∧ (InterfaceIpv6.pre_edit_cleanup x).auto_gateway
        = (if x.auto_gateway = none then some true else x.auto_gateway)
    ∧ (InterfaceIpv6.pre_edit_cleanup x).auto_routes
        = (if x.auto_routes = none then some true else x.auto_routes)
    ∧ (InterfaceIpv6.pre_edit_cleanup x).addresses
        = (if ((x.addresses.map dropLinkLocal).getD []).isEmpty
            then x.addresses.map dropLinkLocal else none) := by
  obtain ⟨en, pl, dh, ac, ad, dn, a1, a2, a3, a4⟩ := x
  simp only [InterfaceIpv6.is_auto, Bool.and_eq_true, Bool.or_eq_true,
    decide_eq_true_eq] at h
  obtain ⟨he, hd⟩ := h
  subst he
  rcases hd with hd | hd <;> subst hd <;>
    [(rcases ac with _ | c <;> (try rcases c)); (rcases dh with _ | b <;> (try rcases b))] <;>
    rcases a1 <;> rcases a2 <;> rcases a3 <;> rcases ad with _ | l <;>
    simp [InterfaceIpv6.pre_edit_cleanup, InterfaceIpv6.cleanup, InterfaceIpv6.is_auto] <;>
    (try (rcases hl : dropLinkLocal l with _ | ⟨d0, dl⟩ <;> simp [hl]))

/-- C8: pre_edit_cleanup on a family config in automatic mode defaults
each unset auto_dns, auto_gateway and auto_routes to Some(true), leaves
explicitly set ones unchanged, and drops the static address list when a
non-empty one is present at the auto-mode check (for IPv6 the list has
already gone through the link-local filter). -/
theorem pre_edit_auto_defaults :
    ∀ (x4 : InterfaceIpv4) (x6 : InterfaceIpv6),
      (x4.is_auto = true →
        (InterfaceIpv4.pre_edit_cleanup x4).auto_dns
            = (if x4.auto_dns = none then some true else x4.auto_dns)
        ∧ (InterfaceIpv4.pre_edit_cleanup x4).auto_gateway
            = (if x4.auto_gateway = none then some true else x4.auto_gateway)
        ∧ (InterfaceIpv4.pre_edit_cleanup x4).auto_routes
            = (if x4.auto_routes = none then some true else x4.auto_routes)
        ∧ (InterfaceIpv4.pre_edit_cleanup x4).addresses
            = (if (x4.addresses.getD []).isEmpty then x4.addresses else none))
      ∧ (x6.is_auto = true →
        (InterfaceIpv6.pre_edit_cleanup x6).auto_dns
            = (if x6.auto_dns = none then some true else x6.auto_dns)
        ∧ (InterfaceIpv6.pre_edit_cleanup x6).auto_gateway
            = (if x6.auto_gateway = none then some true else x6.auto_gateway)
        ∧ (InterfaceIpv6.pre_edit_cleanup x6).auto_routes
            = (if x6.auto_routes = none then some true else x6.auto_routes)
        ∧ (InterfaceIpv6.pre_edit_cleanup x6).addresses
            = (if ((x6.addresses.map dropLinkLocal).getD []).isEmpty
                then x6.addresses.map dropLinkLocal else none)) :=
  fun x4 x6 => ⟨pe4_auto x4, pe6_auto x6⟩

/-- C8 witness: the spec's example, an enabled IPv6 config with dhcp on
and auto_dns unset has auto_dns = Some(true) after pre_edit_cleanup. -/
theorem pre_edit_auto_defaults_witness :
    (InterfaceIpv6.pre_edit_cleanup c8Cfg).auto_dns = some true := by
  have h := (pre_edit_auto_defaults InterfaceIpv4.empty c8Cfg).2 (by decide)
  simpa using h.1

/-- C5: evaluation at the failing input. The string-based link-local
test removes fe8::1/64 from a verify-normalized address list although
that address is not in fe80::/10 (first conjuncts), while the genuine
link-local fe80::1/64 is removed and 2001:db8::1/64 retained as the
claim states (remaining conjuncts); pre_edit_cleanup drops the same
impostor address. -/
theorem link_local_filter_misclassifies :
    (InterfaceIpv6.pre_verify_cleanup c5Cfg).addresses = some []
    ∧ inFe80Slash10 c5Fe8.ip c5Fe8.prefix_length = false
    ∧ (InterfaceIpv6.pre_edit_cleanup c5Cfg).addresses = some []
    ∧ (InterfaceIpv6.pre_verify_cleanup c5CfgB).addresses = some [c5Global]
    ∧ inFe80Slash10 c5LinkLocal.ip c5LinkLocal.prefix_length = true := by
  decide

/-- The IPv6 block never touches the IPv4 config. -/
theorem retainV6_ipv4 (c d : BaseInterface) : (retainV6 c d).ipv4 = d.ipv4 := by
  obtain ⟨c4, c6⟩ := c
  obtain ⟨d4, d6⟩ := d
  unfold retainV6
  rcases c6 with _ | cc <;> rcases d6 with _ | dc <;> dsimp <;> split_ifs <;> rfl

/-- The IPv4 block never touches the IPv6 config. -/
theorem retainV4_ipv6 (c d : BaseInterface) : (retainV4 c d).ipv6 = d.ipv6 := by
  obtain ⟨c4, c6⟩ := c
  obtain ⟨d4, d6⟩ := d
  unfold retainV4
  rcases c4 with _ | cc <;> rcases d4 with _ | dc <;> dsimp <;> split_ifs <;> rfl

/-- Copy case of the IPv4 block: automatic current config with a
present address list, enabled non-automatic desired config without one. -/
theorem retain_ipv4_copy (c d : BaseInterface) (cc dc : InterfaceIpv4)
    (hc : c.ipv4 = some cc) (hd : d.ipv4 = some dc)
    (h1 : cc.is_auto = true) (h2 : cc.addresses.isSome = true)
    (h3 : dc.enabled = true) (h4 : dc.is_auto = false) (h5 : dc.addresses = none) :
    (retainIfaceStep c d).ipv4 = some { dc with addresses := cc.addresses } := by
  unfold retainIfaceStep
  rw [retainV6_ipv4]
  obtain ⟨c4, c6⟩ := c
  obtain ⟨d4, d6⟩ := d
  cases hc
  cases hd
  unfold retainV4
  simp [h1, h2, h3, h4, h5]

/-- No-op cases of the IPv4 block: the desired config already has an
address list, or is automatic, or the current config has no address
list or no IPv4 config at all. -/
theorem retain_ipv4_noop (c d : BaseInterface) :
    (∀ dc, d.ipv4 = some dc → dc.addresses.isSome = true →
      (retainIfaceStep c d).ipv4 = d.ipv4)
    ∧ (∀ dc, d.ipv4 = some dc → dc.is_auto = true →
      (retainIfaceStep c d).ipv4 = d.ipv4)
    ∧ (∀ cc, c.ipv4 = some cc → cc.addresses = none →
      (retainIfaceStep c d).ipv4 = d.ipv4)
    ∧ (c.ipv4 = none → (retainIfaceStep c d).ipv4 = d.ipv4) := by
  unfold retainIfaceStep
  rw [retainV6_ipv4]
  obtain ⟨c4, c6⟩ := c
  obtain ⟨d4, d6⟩ := d
  refine ⟨?_, ?_, ?_, ?_⟩ <;> unfold retainV4
  · rintro dc rfl h
    rcases c4 with _ | cc
    · rfl
    · rcases hda : dc.addresses with _ | al
      · rw [hda] at h; simp at h
      · simp [hda]
  · rintro dc rfl h
    rcases c4 with _ | cc
    · rfl
    · simp [h]
  · rintro cc rfl h
    simp [h]
  · rintro rfl
    rfl

/-- Copy case of the IPv6 block, after the IPv4 block has run (which
never touches the IPv6 config). -/
theorem retain_ipv6_copy (c d : BaseInterface) (cc dc : InterfaceIpv6)
    (hc : c.ipv6 = some cc) (hd : d.ipv6 = some dc)
    (h1 : cc.is_auto = true) (h2 : cc.addresses.isSome = true)
    (h3 : dc.enabled = true) (h4 : dc.is_auto = false) (h5 : dc.addresses = none) :
    (retainIfaceStep c d).ipv6 = some { dc with addresses := cc.addresses } := by
  unfold retainIfaceStep
  have hm : (retainV4 c d).ipv6 = d.ipv6 := retainV4_ipv6 c d
  rw [hd] at hm
  generalize (retainV4 c d) = m at hm
  obtain ⟨c4, c6⟩ := c
  obtain ⟨m4, m6⟩ := m
  cases hc
  dsimp at hm
  subst hm
  unfold retainV6
  simp [h1, h2, h3, h4, h5]

/-- No-op cases of the IPv6 block. -/
theorem retain_ipv6_noop (c d : BaseInterface) :
    (∀ dc, d.ipv6 = some dc → dc.addresses.isSome = true →
      (retainIfaceStep c d).ipv6 = d.ipv6)
    ∧ (∀ dc, d.ipv6 = some dc → dc.is_auto = true →
      (retainIfaceStep c d).ipv6 = d.ipv6)
    ∧ (∀ cc, c.ipv6 = some cc → cc.addresses = none →
      (retainIfaceStep c d).ipv6 = d.ipv6)
    ∧ (c.ipv6 = none → (retainIfaceStep c d).ipv6 = d.ipv6) := by
  unfold retainIfaceStep
  have hm : (retainV4 c d).ipv6 = d.ipv6 := retainV4_ipv6 c d
  generalize (retainV4 c d) = m at hm
  refine ⟨?_, ?_, ?_, ?_⟩
  · rintro dc hd h
    rw [hd] at hm
    obtain ⟨c4, c6⟩ := c
    obtain ⟨m4, m6⟩ := m
    dsimp at hm
    subst hm
    rw [hd]
    unfold retainV6
    rcases c6 with _ | cc
    · rfl
    · rcases hda : dc.addresses with _ | al
      · rw [hda] at h; simp at h
      · simp [hda]
  · rintro dc hd h
    rw [hd] at hm
    obtain ⟨c4, c6⟩ := c
    obtain ⟨m4, m6⟩ := m
    dsimp at hm
    subst hm
    rw [hd]
    unfold retainV6
    rcases c6 with _ | cc
    · rfl
    · simp [h]
  · rintro cc hc h
    obtain ⟨c4, c6⟩ := c
    obtain ⟨m4, m6⟩ := m
    cases hc
    dsimp at hm
    subst hm
    unfold retainV6
    simp [h]
  · rintro hc
    obtain ⟨c4, c6⟩ := c
    obtain ⟨m4, m6⟩ := m
    cases hc
    dsimp at hm
    subst hm
    unfold retainV6
    rfl

/-- Lookup after mapping the retain step over an association list. -/
theorem lookup_map_retain (cur : Interfaces) (name : String) :
    ∀ t : List (String × BaseInterface),
      List.lookup name (t.map (fun pr =>
        match cur.get pr.1 with
        | none => pr
        | some c => (pr.1, retainIfaceStep c pr.2)))
      = (List.lookup name t).map (fun d =>
          match cur.get name with
          | none => d
          | some c => retainIfaceStep c d) := by
  intro t
  induction t with
  | nil => rfl
  | cons pr rest ih =>
    obtain ⟨k, v⟩ := pr
    rcases hc : cur.get k with _ | c <;> by_cases hk : name = k
    · subst hk
      simp [List.lookup, hc]
    · have hk2 : (name == k) = false := by simpa using hk
      simp [List.lookup, hc, hk2, ih]
    · subst hk
      simp [List.lookup, hc]
    · have hk2 : (name == k) = false := by simpa using hk
      simp [List.lookup, hc, hk2, ih]

/-- Lookup in the propagated state: an interface found in the desired
state comes out unchanged when the current state lacks it and through
retainIfaceStep when the current state has it. -/
theorem retain_get (chg cur : Interfaces) (name : String) :
    (include_current_ip_address_if_dhcp_on_to_off chg cur).get name
      = (chg.get name).map
          (fun d =>
            match cur.get name with
            | none => d
            | some c => retainIfaceStep c d) := by
  obtain ⟨l⟩ := chg
  exact lookup_map_retain cur name l

/-- C4 counterexample: the current config is automatic with an empty
resolved address list, so the claim's copy condition (non-empty list)
does not hold and its no-op clause (nothing to preserve) does; yet the
code copies the empty list, turning the desired addresses from None
into Some []. -/
theorem retained_address_propagation_counterexample :
    c4DesManual.addresses = none
    ∧ c4CurAuto.addresses = some []
    ∧ include_current_ip_address_if_dhcp_on_to_off c4Chg c4Cur
        = ⟨[("eth0", ⟨some { c4DesManual with addresses := some [] }, none⟩)]⟩
    ∧ include_current_ip_address_if_dhcp_on_to_off c4Chg c4Cur ≠ c4Chg := by
  decide

/-- C4 (amended): for an interface present in both states the result is
retainIfaceStep of the two records (and an interface absent from the
current state is untouched); per family, the current addresses are
copied whenever the current config is automatic and its addresses field
is present (possibly an empty list), the desired config is enabled, not
automatic and without an address list; it is a no-op when the desired
config already has an address list, is automatic, or when the current
config has no address list (None) or no config for that family. -/
theorem retained_address_propagation_amended :
    ∀ (chg cur : Interfaces) (name : String) (c d : BaseInterface)
      (cc4 dc4 : InterfaceIpv4) (cc6 dc6 : InterfaceIpv6),
      (chg.get name = some d →
        (include_current_ip_address_if_dhcp_on_to_off chg cur).get name
          = some (match cur.get name with
                  | none => d
                  | some c0 => retainIfaceStep c0 d))
      ∧ (c.ipv4 = some cc4 → d.ipv4 = some dc4 → cc4.is_auto = true →
          cc4.addresses.isSome = true → dc4.enabled = true → dc4.is_auto = false →
          dc4.addresses = none →
          (retainIfaceStep c d).ipv4 = some { dc4 with addresses := cc4.addresses })
      ∧ ((∀ dc, d.ipv4 = some dc → dc.addresses.isSome = true →
            (retainIfaceStep c d).ipv4 = d.ipv4)
        ∧ (∀ dc, d.ipv4 = some dc → dc.is_auto = true →
            (retainIfaceStep c d).ipv4 = d.ipv4)
        ∧ (∀ cc, c.ipv4 = some cc → cc.addresses = none →
            (retainIfaceStep c d).ipv4 = d.ipv4)
        ∧ (c.ipv4 = none → (retainIfaceStep c d).ipv4 = d.ipv4))
      ∧ (c.ipv6 = some cc6 → d.ipv6 = some dc6 → cc6.is_auto = true →
          cc6.addresses.isSome = true → dc6.enabled = true → dc6.is_auto = false →
          dc6.addresses = none →
          (retainIfaceStep c d).ipv6 = some { dc6 with addresses := cc6.addresses })
      ∧ ((∀ dc, d.ipv6 = some dc → dc.addresses.isSome = true →
            (retainIfaceStep c d).ipv6 = d.ipv6)
        ∧ (∀ dc, d.ipv6 = some dc → dc.is_auto = true →
            (retainIfaceStep c d).ipv6 = d.ipv6)
        ∧ (∀ cc, c.ipv6 = some cc → cc.addresses = none →
            (retainIfaceStep c d).ipv6 = d.ipv6)
        ∧ (c.ipv6 = none → (retainIfaceStep c d).ipv6 = d.ipv6)) :=
  fun chg cur name c d cc4 dc4 cc6 dc6 =>
    ⟨fun hd => by rw [retain_get, hd]; rfl,
     fun h1 h2 h3 h4 h5 h6 h7 => retain_ipv4_copy c d cc4 dc4 h1 h2 h3 h4 h5 h6 h7,
     retain_ipv4_noop c d,
     fun h1 h2 h3 h4 h5 h6 h7 => retain_ipv6_copy c d cc6 dc6 h1 h2 h3 h4 h5 h6 h7,
     retain_ipv6_noop c d⟩

/-- C4 witness: the spec's example, a current automatic v4 config with
10.0.0.5/24 propagates that address into the desired manual config. -/
theorem retained_address_propagation_amended_witness :
    (include_current_ip_address_if_dhcp_on_to_off c4Chg c4CurB).get "eth0"
      = some ⟨some { c4DesManual with addresses := some [⟨mkV4 167772165, 24⟩] }, none⟩ := by
  have h := (retained_address_propagation_amended c4Chg c4CurB "eth0"
    ⟨some c4CurFull, none⟩ ⟨some c4DesManual, none⟩ InterfaceIpv4.empty InterfaceIpv4.empty
    InterfaceIpv6.empty InterfaceIpv6.empty).1 (by decide)
  rw [h]
  decide

/-- C6: an empty handle is resolved to the first entry of the daemon's
active-checkpoint listing and the daemon call is issued on it; with an
empty listing and no handle the call fails with NotFound; a non-empty
handle goes to the daemon unchanged. -/
theorem checkpoint_handle_resolution :
    ∀ (d : NmDbus) (cp c : String) (rest : List String),
      (cp ≠ "" →
        NmApi.checkpoint_destroy d cp = d.checkpoint_destroy cp
        ∧ NmApi.checkpoint_rollback d cp = d.checkpoint_rollback cp)
      ∧ (d.checkpoints = .ok (c :: rest) →
        NmApi.checkpoint_destroy d "" = d.checkpoint_destroy c
        ∧ NmApi.checkpoint_rollback d "" = d.checkpoint_rollback c)
      ∧ (d.checkpoints = .ok [] →
        NmApi.checkpoint_destroy d "" = .error ⟨.notFound, "Not active checkpoints"⟩
        ∧ NmApi.checkpoint_rollback d "" = .error ⟨.notFound, "Not active checkpoints"⟩) := by
  intro d cp c rest
  refine ⟨fun h => ?_, fun h => ?_, fun h => ?_⟩
  · constructor <;>
      simp [NmApi.checkpoint_destroy, NmApi.checkpoint_rollback, h]
  · constructor <;>
      simp [NmApi.checkpoint_destroy, NmApi.checkpoint_rollback,
        NmApi.last_active_checkpoint, h]
  · constructor <;>
      simp [NmApi.checkpoint_destroy, NmApi.checkpoint_rollback,
        NmApi.last_active_checkpoint, h]

/-- C6 witness: with listing [cp-2, cp-1] an empty handle operates on
cp-2 for both destroy and rollback; with an empty listing both fail
with NotFound. -/
theorem checkpoint_handle_resolution_witness :
    NmApi.checkpoint_destroy c6Dbus "" = .error ⟨.dbusFailure, "cp-2"⟩
    ∧ NmApi.checkpoint_rollback c6Dbus "" = .error ⟨.dbusFailure, "cp-2"⟩
    ∧ NmApi.checkpoint_destroy c6DbusEmpty ""
        = .error ⟨.notFound, "Not active checkpoints"⟩
    ∧ NmApi.checkpoint_destroy c6Dbus "cp-1" = .error ⟨.dbusFailure, "cp-1"⟩ := by
  have h1 := (checkpoint_handle_resolution c6Dbus "" "cp-2" ["cp-1"]).2.1 rfl
  have h2 := (checkpoint_handle_resolution c6DbusEmpty "" "cp-2" []).2.2 rfl
  have h3 := (checkpoint_handle_resolution c6Dbus "cp-1" "cp-2" ["cp-1"]).1 (by decide)
  exact ⟨h1.1.trans rfl, h1.2.trans rfl, h2.1, h3.1.trans rfl⟩

/-- The polling loop succeeds exactly when some admitted poll sees no
waiting device, and its only error is the Timeout error. -/
theorem rollbackWaitLoop_spec (devs : Nat → List NmDevice) :
    ∀ (fuel k : Nat),
      (rollbackWaitLoop devs k fuel = .ok () ↔
        ∃ j, j < fuel ∧ ((devs (k + j)).filter deviceIsWaiting).isEmpty = true)
      ∧ (∀ e, rollbackWaitLoop devs k fuel = .error e →
          e = ⟨.timeout, "Timeout on waiting rollback"⟩) := by
  intro fuel
  induction fuel with
  | zero =>
    intro k
    constructor
    · simp [rollbackWaitLoop]
    · intro e h
      simp [rollbackWaitLoop] at h
      exact h.symm
  | succ n ih =>
    intro k
    by_cases hw : ((devs k).filter deviceIsWaiting).isEmpty = true
    · constructor
      · simp only [rollbackWaitLoop, hw, if_true]
        constructor
        · intro _
          exact ⟨0, Nat.succ_pos n, by simpa using hw⟩
        · intro _
          trivial
      · intro e h
        simp only [rollbackWaitLoop, hw, if_true] at h
        cases h
    · have hstep : rollbackWaitLoop devs k (n + 1) = rollbackWaitLoop devs (k + 1) n := by
        simp [rollbackWaitLoop, hw]
      constructor
      · rw [hstep, (ih (k + 1)).1]
        constructor
        · rintro ⟨j, hj, hp⟩
          refine ⟨j + 1, by omega, ?_⟩
          have : k + 1 + j = k + (j + 1) := by omega
          rwa [this] at hp
        · rintro ⟨j, hj, hp⟩
          rcases j with _ | j
          · exact absurd (by simpa using hp) hw
          · refine ⟨j, by omega, ?_⟩
            have : k + (j + 1) = k + 1 + j := by omega
            rwa [this] at hp
      · intro e h
        rw [hstep] at h
        exact (ih (k + 1)).2 e h

/-- Empty filter result means no element satisfies the predicate. -/
theorem noWaiting_iff (l : List NmDevice) :
    ((l.filter deviceIsWaiting).isEmpty = true) ↔
      ∀ dev ∈ l, deviceIsWaiting dev = false := by
  rw [List.isEmpty_iff, List.filter_eq_nil_iff]
  simp

/-- C7: a device counts as waiting exactly when its state-change reason
is NewActivation or its state is IpConfig or Deactivating; the poller
succeeds exactly when one of the admitted polls (elapsed ≤ timeout,
i.e. poll index ≤ 2·timeout) sees no waiting device; any failure is the
Timeout error; and when every admitted poll still has a waiting device
the poller fails with Timeout. -/
theorem wait_checkpoint_rollback_behavior :
    ∀ (devs : Nat → List NmDevice) (timeout : Nat),
      (∀ dev, deviceIsWaiting dev = true ↔
        (dev.state_reason = .newActivation ∨ dev.state = .ipConfig
          ∨ dev.state = .deactivating))
      ∧ (NmApi.wait_checkpoint_rollback devs timeout = .ok () ↔
          ∃ k, k ≤ 2 * timeout ∧ ∀ dev ∈ devs k, deviceIsWaiting dev = false)
      ∧ (∀ e, NmApi.wait_checkpoint_rollback devs timeout = .error e →
          e = ⟨.timeout, "Timeout on waiting rollback"⟩)
      ∧ ((∀ k, k ≤ 2 * timeout → ∃ dev ∈ devs k, deviceIsWaiting dev = true) →
          NmApi.wait_checkpoint_rollback devs timeout
            = .error ⟨.timeout, "Timeout on waiting rollback"⟩) := by
  intro devs timeout
  have hs := rollbackWaitLoop_spec devs (2 * timeout + 1) 0
  have hwc : NmApi.wait_checkpoint_rollback devs timeout
      = rollbackWaitLoop devs 0 (2 * timeout + 1) := rfl
  have hiff : NmApi.wait_checkpoint_rollback devs timeout = .ok () ↔
      ∃ k, k ≤ 2 * timeout ∧ ∀ dev ∈ devs k, deviceIsWaiting dev = false := by
    rw [hwc, hs.1]
    constructor
    · rintro ⟨j, hj, hp⟩
      refine ⟨j, by omega, (noWaiting_iff (devs j)).mp ?_⟩
      simpa using hp
    · rintro ⟨k, hk, hp⟩
      refine ⟨k, by omega, ?_⟩
      simpa using (noWaiting_iff (devs k)).mpr hp
  refine ⟨?_, hiff, fun e h => hs.2 e (hwc ▸ h), ?_⟩
  · intro dev
    simp [deviceIsWaiting, or_assoc]
  · intro hall
    cases hres : NmApi.wait_checkpoint_rollback devs timeout with
    | error e =>
      exact congrArg Except.error (hs.2 e (hwc ▸ hres))
    | ok u =>
      exfalso
      cases u
      obtain ⟨k, hk, hforall⟩ := hiff.mp hres
      obtain ⟨dev, hdev, hw⟩ := hall k hk
      rw [hforall dev hdev] at hw
      cases hw

/-- C7 witness: listings that settle on the third poll give success
with timeout 5; a device stuck in IpConfig for every poll gives the
Timeout error. -/
theorem wait_checkpoint_rollback_behavior_witness :
    NmApi.wait_checkpoint_rollback c7DevsSettle 5 = .ok ()
    ∧ NmApi.wait_checkpoint_rollback c7DevsStuck 5
        = .error ⟨.timeout, "Timeout on waiting rollback"⟩ := by
  have h := wait_checkpoint_rollback_behavior c7DevsSettle 5
  have h2 := wait_checkpoint_rollback_behavior c7DevsStuck 5
  constructor
  · exact h.2.1.mpr ⟨2, by omega, by decide⟩
  · refine h2.2.2.2 (fun k hk => ⟨⟨"eth0", .ipConfig, .noReason⟩, ?_, by decide⟩)
    simp [c7DevsStuck]

/-- The connection resolution loop keeps exactly the successfully
resolved entries, in order. -/
theorem collectConns_eq (d : NmDbus) :
    ∀ ps : List String,
      collectConns d ps
        = ps.filterMap (fun p => exceptToOption (d.conn_from_obj_path p)) := by
  intro ps
  induction ps with
  | nil => rfl
  | cons p rest ih =>
    cases h : d.conn_from_obj_path p <;>
      simp [collectConns, h, exceptToOption, ih]

/-- The device resolution loop keeps exactly the successfully resolved
entries, in order. -/
theorem collectDevs_eq (d : NmDbus) :
    ∀ ps : List String,
      collectDevs d ps
        = ps.filterMap (fun p => exceptToOption (d.dev_from_obj_path p)) := by
  intro ps
  induction ps with
  | nil => rfl
  | cons p rest ih =>
    cases h : d.dev_from_obj_path p <;>
      simp [collectDevs, h, exceptToOption, ih]

/-- The active-connection resolution loop keeps exactly the entries
resolved to Ok(Some), in order. -/
theorem collectAcs_eq (d : NmDbus) :
    ∀ ps : List String,
      collectAcs d ps
        = ps.filterMap (fun p =>
            match d.ac_from_obj_path p with
            | .ok (some ac) => some ac
            | _ => none) := by
  intro ps
  induction ps with
  | nil => rfl
  | cons p rest ih =>
    rcases h : d.ac_from_obj_path p with e | ac
    · simp [collectAcs, h, ih]
    · rcases ac with _ | ac <;> simp [collectAcs, h, ih]

/-- C9: each enumeration returns Ok exactly when the top-level listing
call returns Ok, whatever the per-item resolutions do: a failing item
is dropped from the Ok result, and the operation returns the top-level
call's error only when that call itself fails. -/
theorem enumeration_best_effort :
    ∀ d : NmDbus,
      (∀ e, d.nm_conn_obj_paths_get = .error e → NmApi.connections_get d = .error e)
      ∧ (∀ paths, d.nm_conn_obj_paths_get = .ok paths →
          NmApi.connections_get d
            = .ok (paths.filterMap (fun p => exceptToOption (d.conn_from_obj_path p))))
      ∧ (∀ e, d.nm_dev_obj_paths_get = .error e → NmApi.devices_get d = .error e)
      ∧ (∀ paths, d.nm_dev_obj_paths_get = .ok paths →
          NmApi.devices_get d
            = .ok (paths.filterMap (fun p => exceptToOption (d.dev_from_obj_path p))))
      ∧ (∀ e, d.active_connections = .error e → NmApi.active_connections_get d = .error e)
      ∧ (∀ paths, d.active_connections = .ok paths →
          NmApi.active_connections_get d
            = .ok (paths.filterMap (fun p =>
                match d.ac_from_obj_path p with
                | .ok (some ac) => some ac
                | _ => none))) := by
  intro d
  refine ⟨fun e h => ?_, fun paths h => ?_, fun e h => ?_, fun paths h => ?_,
    fun e h => ?_, fun paths h => ?_⟩
  · simp [NmApi.connections_get, h]
  · simp [NmApi.connections_get, h, collectConns_eq]
  · simp [NmApi.devices_get, h]
  · simp [NmApi.devices_get, h, collectDevs_eq]
  · simp [NmApi.active_connections_get, h]
  · simp [NmApi.active_connections_get, h, collectAcs_eq]

/-- C9 witness: listings with one resolvable and one unresolvable entry
per enumeration return Ok with just the resolvable entry. -/
theorem enumeration_best_effort_witness :
    NmApi.connections_get c9Dbus = .ok [⟨"a"⟩]
    ∧ NmApi.devices_get c9Dbus = .ok [⟨"da", .activated, .noReason⟩]
    ∧ NmApi.active_connections_get c9Dbus = .ok [⟨"aa"⟩] := by
  have h := enumeration_best_effort c9Dbus
  refine ⟨(h.2.1 ["a", "b"] rfl).trans (by rfl),
    (h.2.2.2.1 ["da", "db"] rfl).trans (by rfl),
    (h.2.2.2.2.2 ["aa", "ab"] rfl).trans (by rfl)⟩

/-- Only the first two slash-separated components influence the parse
outcome (the dropped text appears in no branch, and the error payload
is stripped): components beyond the second are silently ignored. -/
theorem parse_ignores_extra (f : String → Option IpAddr) (g : String → Option Nat)
    (value w : String)
    (heq : resizeTwo (splitSlash value) = resizeTwo (splitSlash w)) :
    exceptToOption (interfaceIpAddrFromStr f g value)
      = exceptToOption (interfaceIpAddrFromStr f g w) := by
  have e0 : slashHead value = slashHead w := by
    unfold slashHead
    rw [heq]
  have e1 : slashSecond value = slashSecond w := by
    unfold slashSecond
    rw [heq]
  unfold interfaceIpAddrFromStr
  rw [e0, e1]
  rcases hf : f (slashHead w) with _ | ip
  · simp [exceptToOption]
  · by_cases h1 : slashSecond w = ""
    · simp [h1, exceptToOption]
    · rcases hg : g (slashSecond w) with _ | p <;> simp [h1, hg, exceptToOption]

/-- C10: the parse succeeds exactly when the text before the first
slash parses as an IP address and the text between the first and second
slash, when non-empty, parses as a u8; every failure carries the
InvalidArgument kind; an absent or empty prefix component defaults the
prefix length to 128 for IPv6 and 32 for IPv4; and text after a second
slash is ignored. -/
theorem interface_ip_addr_parse :
    ∀ (f : String → Option IpAddr) (g : String → Option Nat) (value w : String),
      ((∃ r, interfaceIpAddrFromStr f g value = .ok r) ↔
        ((f (slashHead value)).isSome = true
          ∧ (slashSecond value = "" ∨ (g (slashSecond value)).isSome = true)))
      ∧ (∀ e, interfaceIpAddrFromStr f g value = .error e →
          e.kind = .invalidArgument)
      ∧ (∀ ip, f (slashHead value) = some ip → slashSecond value = "" →
          interfaceIpAddrFromStr f g value = .ok ⟨ip, if ip.is_ipv6 then 128 else 32⟩)
      ∧ (∀ ip p, f (slashHead value) = some ip → slashSecond value ≠ "" →
          g (slashSecond value) = some p →
          interfaceIpAddrFromStr f g value = .ok ⟨ip, p⟩)
      ∧ (resizeTwo (splitSlash value) = resizeTwo (splitSlash w) →
          exceptToOption (interfaceIpAddrFromStr f g value)
            = exceptToOption (interfaceIpAddrFromStr f g w)) := by
  intro f g value w
  refine ⟨?_, ?_, ?_, ?_, parse_ignores_extra f g value w⟩
  · rcases hf : f (slashHead value) with _ | ip
    · constructor
      · rintro ⟨r, hr⟩
        simp [interfaceIpAddrFromStr, hf] at hr
      · rintro ⟨h, _⟩
        simp [hf] at h
    · by_cases h1 : slashSecond value = ""
      · constructor
        · intro _
          exact ⟨by simp [hf], Or.inl h1⟩
        · intro _
          exact ⟨⟨ip, if ip.is_ipv6 then 128 else 32⟩,
            by simp [interfaceIpAddrFromStr, hf, h1]⟩
      · rcases hg : g (slashSecond value) with _ | p
        · constructor
          · rintro ⟨r, hr⟩
            simp [interfaceIpAddrFromStr, hf, h1, hg] at hr
          · rintro ⟨_, h | h⟩
            · exact absurd h h1
            · simp at h
        · constructor
          · intro _
            exact ⟨by simp [hf], Or.inr (by simp)⟩
          · intro _
            exact ⟨⟨ip, p⟩, by simp [interfaceIpAddrFromStr, hf, h1, hg]⟩
  · intro e h
    unfold interfaceIpAddrFromStr at h
    rcases hf : f (slashHead value) with _ | ip <;> rw [hf] at h <;> dsimp only at h
    · cases h
      rfl
    · by_cases h1 : slashSecond value = ""
      · rw [if_pos h1] at h
        cases h
      · rw [if_neg h1] at h
        rcases hg : g (slashSecond value) with _ | p <;> rw [hg] at h <;> dsimp only at h
        · cases h
          rfl
        · cases h
  · intro ip hf h1
    simp [interfaceIpAddrFromStr, hf, h1]
  · intro ip p hf h1 hg
    simp [interfaceIpAddrFromStr, hf, h1, hg]

/-- C10 witness: with stand-in parsers accepting 1.2.3.4 and 24, the
full string parses, the text after a second slash changes nothing, an
omitted prefix defaults to 32 for the IPv4 address, and a bad prefix
fails with InvalidArgument. -/
theorem interface_ip_addr_parse_witness :
    interfaceIpAddrFromStr c10IpFromStr c10U8FromStr "1.2.3.4/24" = .ok ⟨c10Ip, 24⟩
    ∧ exceptToOption (interfaceIpAddrFromStr c10IpFromStr c10U8FromStr "1.2.3.4/24/zzz")
        = exceptToOption (interfaceIpAddrFromStr c10IpFromStr c10U8FromStr "1.2.3.4/24")
    ∧ interfaceIpAddrFromStr c10IpFromStr c10U8FromStr "1.2.3.4" = .ok ⟨c10Ip, 32⟩
    ∧ (∀ e, interfaceIpAddrFromStr c10IpFromStr c10U8FromStr "1.2.3.4/xx" = .error e →
        e.kind = .invalidArgument) := by
  have h1 := interface_ip_addr_parse c10IpFromStr c10U8FromStr "1.2.3.4/24" "1.2.3.4/24"
  have h2 := interface_ip_addr_parse c10IpFromStr c10U8FromStr "1.2.3.4/24/zzz" "1.2.3.4/24"
  have h3 := interface_ip_addr_parse c10IpFromStr c10U8FromStr "1.2.3.4" "1.2.3.4"
  have h4 := interface_ip_addr_parse c10IpFromStr c10U8FromStr "1.2.3.4/xx" "1.2.3.4/xx"
  refine ⟨?_, h2.2.2.2.2 (by rfl), ?_, h4.2.1⟩
  · have := h1.2.2.2.1 c10Ip 24 (by rfl) (by decide) (by rfl)
    simpa using this
  · have := h3.2.2.1 c10Ip (by rfl) (by rfl)
    simpa using this
